import Mathlib

/-!
Verification of the Music-Player repository's playback engine and playlist
sequencer (src/main.py), as a shallow embedding in Lean.

The engine (`TrackPlayer`) is modelled by `EngineState`; the real-time audio
callback (`TrackPlayer.callback`) becomes a pure function from an engine state
and a frame source to an output buffer, a successor state, and two events:
whether the completion notification was dispatched to a separate thread
(`Thread(target=...).start()`), and whether `sd.CallbackStop` was raised.
Audio frames are modelled one rational sample per frame (channel interleaving
is irrelevant to every property considered here).  The application layer
(`MusicPlayer.play_track` / `MusicPlayer.on_track_finished`) is modelled over
an abstract path type; Python exceptions that would escape the handler are
modelled with `Except`.
-/

/-- State of one `TrackPlayer` (src/main.py lines 53-63): the soundfile
reader's position (`sf.tell()`), whether the reader is open, whether an
output stream is attached, the volume scalar, the paused flag and the
`current_frame` read cursor.  `finishedCallback` records whether a
`finished_callback` handler is attached. -/
structure EngineState where
  samplerate : Nat
  totalFrames : Nat
  readerPos : Nat
  readerOpen : Bool
  streamActive : Bool
  volume : ℚ
  paused : Bool
  currentFrame : Nat
  finishedCallback : Bool
  deriving DecidableEq, Repr

/-- Result of one real-time callback invocation: the output buffer that was
written, the engine state afterwards, whether the completion notification was
handed to a separate thread, and whether `sd.CallbackStop` was raised. -/
structure CallbackResult where
  out : List ℚ
  state : EngineState
  dispatched : Bool
  stopRaised : Bool
  deriving DecidableEq, Repr

/-- `TrackPlayer.callback` (src/main.py lines 65-81).  `src i` is the sample
the soundfile decodes at absolute frame `i`; `sf.read(frames)` returns
`min frames (totalFrames - readerPos)` frames starting at `readerPos` and
advances the reader.  In the short-read branch the code fills
`outdata[:len(data)]` with `data * volume`, zero-fills the rest, starts a
daemon thread on `finished_callback` when one is set, and raises
`sd.CallbackStop` — so the `current_frame = sf.tell()` line is never reached
in that branch. -/
def callback (src : Nat → ℚ) (st : EngineState) (frames : Nat) : CallbackResult :=
  if st.paused then
    { out := List.replicate frames 0, state := st, dispatched := false, stopRaised := false }
  else
    let n := min frames (st.totalFrames - st.readerPos)
    let data := (List.range n).map fun i => src (st.readerPos + i)
    let afterRead : EngineState := { st with readerPos := st.readerPos + n }
    if n < frames then
      { out := data.map (fun x => x * st.volume) ++ List.replicate (frames - n) 0,
        state := afterRead,
        dispatched := st.finishedCallback,
        stopRaised := true }
    else
      { out := data.map (fun x => x * st.volume),
        state := { afterRead with currentFrame := afterRead.readerPos },
        dispatched := false,
        stopRaised := false }

/-- `TrackPlayer.pause` (line 100-101). -/
def pause (st : EngineState) : EngineState := { st with paused := true }

/-- `TrackPlayer.resume` (line 103-104). -/
def resume (st : EngineState) : EngineState := { st with paused := false }

/-- `TrackPlayer.stop` (lines 92-98): stop and close the output stream when
one is attached, `sf.seek(0)` (the reader is rewound, not closed), and reset
`current_frame` to 0. -/
def stop (st : EngineState) : EngineState :=
  { st with streamActive := false, readerPos := 0, currentFrame := 0 }

/-- Python's `int()` applied to a float: truncation toward zero. -/
def pyInt (q : ℚ) : ℤ := if 0 ≤ q then ⌊q⌋ else ⌈q⌉

/-- `np.clip(x, lo, hi)` on integers. -/
def npClip (x lo hi : ℤ) : ℤ := min (max x lo) hi

/-- `np.clip(x, lo, hi)` on (exact) floats. -/
def npClipQ (x lo hi : ℚ) : ℚ := min (max x lo) hi

/-- `TrackPlayer.set_volume` (lines 106-108): `np.clip(value / 100, 0.0, 1.0)`
with `/` Python's true division. -/
def set_volume (st : EngineState) (value : ℤ) : EngineState :=
  { st with volume := npClipQ ((value : ℚ) / 100) 0 1 }

/-- `TrackPlayer.seek` (lines 110-115): `frame = int(seconds * samplerate)`,
clipped to `[0, len(sf)]`, then `sf.seek(frame)` and
`current_frame = sf.tell()`. -/
def seek (st : EngineState) (seconds : ℚ) : EngineState :=
  let frame := npClip (pyInt (seconds * st.samplerate)) 0 st.totalFrames
  { st with readerPos := frame.toNat, currentFrame := frame.toNat }

/-- `Track.get_position` (lines 143-144): `current_frame / samplerate`. -/
def get_position (st : EngineState) : ℚ := (st.currentFrame : ℚ) / (st.samplerate : ℚ)

/-- A run of the audio subsystem: it keeps invoking `callback` (up to a fuel
bound) until an invocation raises `sd.CallbackStop`, after which no further
invocation happens for this stream.  Returns how many invocations dispatched
the completion notification. -/
def dispatchCount (src : Nat → ℚ) (frames : Nat) : EngineState → Nat → Nat
  | _, 0 => 0
  | st, Nat.succ fuel =>
      let r := callback src st frames
      (if r.dispatched then 1 else 0) +
        (if r.stopRaised then 0 else dispatchCount src frames r.state fuel)

/-- Loop mode of the application window (`self.loop_mode`, one of the strings
"none", "song", "list"). -/
inductive LoopMode where
  | none
  | song
  | list
  deriving DecidableEq, Repr

/-- A Python exception that `MusicPlayer.on_track_finished` would not catch
(its `try` catches only `ValueError`). -/
inductive PyErr where
  | zeroDivision
  | indexError
  deriving DecidableEq, Repr

/-- Python's `list.index(p)` (first occurrence), with `ValueError` modelled
as `none`. -/
def listIndex {P : Type} [DecidableEq P] : List P → P → Option Nat
  | [], _ => none
  | a :: as, p => if a = p then some 0 else (listIndex as p).map (· + 1)

/-- Application-level state of `MusicPlayer`: the currently active track (by
its path), the scanned track list, and the loop mode. -/
structure AppState (P : Type) where
  currentTrack : Option P
  trackList : List P
  loopMode : LoopMode
  deriving DecidableEq, Repr

/-- Outcome of one `MusicPlayer.play_track(path)` attempt: the new
application state, whether a previously active track was stopped first, and
how many failure reports (`print(f"Failed to play ...")`) were emitted. -/
structure PlayOutcome (P : Type) where
  state : AppState P
  prevStopped : Bool
  errorsReported : Nat
  deriving DecidableEq, Repr

/-- `MusicPlayer.play_track` (src/main.py lines 355-374).  `opens p` tells
whether `Track(p)` construction (opening/decoding the file) succeeds; when it
fails, the `except` branch prints one failure report and leaves
`current_track` as `None` (the previous track was already stopped and
cleared before the `try`). -/
def play_track {P : Type} (opens : P → Bool) (st : AppState P) (p : P) : PlayOutcome P :=
  let hadPrev := st.currentTrack.isSome
  let cleared : AppState P := { st with currentTrack := none }
  if opens p then
    { state := { cleared with currentTrack := some p },
      prevStopped := hadPrev, errorsReported := 0 }
  else
    { state := cleared, prevStopped := hadPrev, errorsReported := 1 }

/-- `MusicPlayer.on_track_finished` (src/main.py lines 376-390).  Returns the
new state together with the path handed to `play_track` (`none` when no
playback was started); `Except.error` models a Python exception escaping the
handler (its `try` catches only the `ValueError` of `list.index`, so a
`ZeroDivisionError` from `% 0` or an `IndexError` from the list subscript
would propagate). -/
def on_track_finished {P : Type} [DecidableEq P] (opens : P → Bool)
    (st : AppState P) (p : P) : Except PyErr (AppState P × Option P) :=
  match st.loopMode with
  | LoopMode.song => Except.ok ((play_track opens st p).state, some p)
  | LoopMode.list =>
      match listIndex st.trackList p with
      | none => Except.ok (st, none)
      | some idx =>
          if st.trackList.length = 0 then Except.error PyErr.zeroDivision
          else
            match st.trackList[(idx + 1) % st.trackList.length]? with
            | none => Except.error PyErr.indexError
            | some q => Except.ok ((play_track opens st q).state, some q)
  | LoopMode.none => Except.ok ({ st with currentTrack := none }, none)

/-! ### Concrete states used by witnesses and counterexamples -/

/-- An all-zero frame source. -/
def srcZero : Nat → ℚ := fun _ => 0

/-- A paused engine mid-track. -/
def stPaused : EngineState := ⟨4, 100, 7, true, true, 1, true, 7, true⟩

/-- A non-paused engine at frame 0 of a 1-frame track: the next callback hits
end-of-stream. -/
def stEnd : EngineState := ⟨1, 1, 0, true, true, 1, false, 0, true⟩

/-- A non-paused engine at frame 0 of a 10-frame track. -/
def stFull : EngineState := ⟨1, 10, 0, true, true, 1, false, 0, true⟩

/-- A playing engine with the reader open. -/
def stLive : EngineState := ⟨4, 100, 7, true, true, 1, false, 7, true⟩

/-! ### C3: paused callback -/

/-- C3: whenever `paused` is true, a callback invocation fills the whole
output block with silence and returns with the state untouched (no read, no
cursor change, no dispatch, no stop); hence any number of paused invocations
leave the state fixed, and a `pause()`/`resume()` pair preserves the reader
position and the read cursor exactly. -/
theorem callback_paused_silent (src : Nat → ℚ) (st : EngineState) (frames : Nat)
    (h : st.paused = true) :
    callback src st frames =
      { out := List.replicate frames 0, state := st,
        dispatched := false, stopRaised := false } ∧
    (∀ n : Nat, (fun s => (callback src s frames).state)^[n] st = st) ∧
    (resume (pause st)).readerPos = st.readerPos ∧
    (resume (pause st)).currentFrame = st.currentFrame := by
  have hcb : callback src st frames =
      { out := List.replicate frames 0, state := st,
        dispatched := false, stopRaised := false } := by
    simp [callback, h]
  refine ⟨hcb, ?_, rfl, rfl⟩
  intro n
  exact Function.iterate_fixed (by rw [hcb]) n

/-- Witness for C3 at a concrete paused state. -/
theorem callback_paused_silent_witness :
    callback srcZero stPaused 3 =
      { out := List.replicate 3 0, state := stPaused,
        dispatched := false, stopRaised := false } ∧
    (resume (pause stPaused)).currentFrame = stPaused.currentFrame :=
  ⟨(callback_paused_silent srcZero stPaused 3 rfl).1,
   (callback_paused_silent srcZero stPaused 3 rfl).2.2.2⟩

/-! ### C5: set_volume -/

/-- C5: for every integer `v`, `set_volume v` succeeds (it is a total state
update) and the volume read back equals `clamp(v, 0, 100) / 100`, a scalar in
`[0, 1]`; out-of-range values are clamped, never rejected. -/
theorem set_volume_clamps (st : EngineState) (v : ℤ) :
    (set_volume st v).volume = ((max 0 (min v 100) : ℤ) : ℚ) / 100 ∧
    0 ≤ (set_volume st v).volume ∧ (set_volume st v).volume ≤ 1 := by
  refine ⟨?_, ?_, ?_⟩
  · show npClipQ ((v : ℚ) / 100) 0 1 = _
    have h1 : npClipQ ((v : ℚ) / 100) 0 1
        = min (max ((v : ℚ) / 100) ((0 : ℚ) / 100)) ((100 : ℚ) / 100) := by
      norm_num [npClipQ]
    rw [h1, max_div_div_right (by norm_num : (0:ℚ) ≤ 100),
      min_div_div_right (by norm_num : (0:ℚ) ≤ 100)]
    push_cast
    rw [max_min_distrib_left]
    norm_num [max_comm]
  · exact le_min (le_max_right _ _) (by norm_num)
  · exact min_le_right _ _

/-! ### C6: stop -/

/-- C6 as stated is false: `stop()` does not close the reader.  The source
(src/main.py lines 92-98) only stops/closes the output stream, rewinds the
reader with `sf.seek(0)` and zeroes `current_frame`; at the concrete playing
state `stLive` the reader is still open after `stop()`. -/
theorem stop_reader_open_cex : ¬ ((stop stLive).readerOpen = false) := by decide

/-- C6 amended: `stop()` halts the real-time stream, rewinds the reader to
frame 0 (leaving it open rather than closing it) and resets the read cursor
to 0, so `get_position()` afterwards returns 0; and `stop` is idempotent —
a second `stop`, or a `stop` when nothing is playing, yields the same state
and raises no error (it is a total function). -/
theorem stop_resets_idempotent (st : EngineState) :
    stop (stop st) = stop st ∧
    (stop st).streamActive = false ∧
    (stop st).readerPos = 0 ∧
    (stop st).currentFrame = 0 ∧
    (stop st).readerOpen = st.readerOpen ∧
    get_position (stop st) = 0 := by
  refine ⟨rfl, rfl, rfl, rfl, rfl, ?_⟩
  simp [get_position, stop]

/-! ### C2: cursor advancement -/

/-- C2 as stated is false: in the end-of-stream invocation the code raises
`sd.CallbackStop` before the `current_frame = self.sf.tell()` line, so the
cursor is left behind the reader.  Concretely: a non-paused callback on a
1-frame track asked for 2 frames reads 1 frame (`tell()` becomes 1) but
`current_frame` stays 0. -/
theorem callback_cursor_lag_cex :
    stEnd.paused = false ∧
    (callback srcZero stEnd 2).state.readerPos = 1 ∧
    (callback srcZero stEnd 2).state.currentFrame = 0 ∧
    ¬ ((callback srcZero stEnd 2).state.currentFrame =
        (callback srcZero stEnd 2).state.readerPos) := by decide

/-- C2 amended: at the end of every non-paused callback invocation in which
the reader supplies the full requested block, `current_frame` equals the
reader's new position; in a short-read (end-of-stream) invocation
`current_frame` is left unchanged (the `CallbackStop` raise skips the
update).  Either way, under the invariant `current_frame ≤ readerPos` the
cursor never decreases, so between explicit seeks it is monotonically
non-decreasing. -/
theorem callback_cursor_advance (src : Nat → ℚ) (st : EngineState) (frames : Nat)
    (hp : st.paused = false) :
    (frames ≤ st.totalFrames - st.readerPos →
       (callback src st frames).state.currentFrame =
         (callback src st frames).state.readerPos) ∧
    (st.totalFrames - st.readerPos < frames →
       (callback src st frames).state.currentFrame = st.currentFrame) ∧
    (st.currentFrame ≤ st.readerPos →
       st.currentFrame ≤ (callback src st frames).state.currentFrame ∧
       (callback src st frames).state.currentFrame ≤
         (callback src st frames).state.readerPos) := by
  simp only [callback, hp, Bool.false_eq_true, if_false]
  refine ⟨?_, ?_, ?_⟩
  · intro hfull
    rw [min_eq_left hfull]
    simp
  · intro hshort
    rw [min_eq_right (Nat.le_of_lt hshort)]
    simp [hshort]
  · intro hinv
    by_cases hlt : min frames (st.totalFrames - st.readerPos) < frames
    · simp only [if_pos hlt]
      exact ⟨le_refl _, hinv.trans (Nat.le_add_right _ _)⟩
    · simp only [if_neg hlt]
      exact ⟨hinv.trans (Nat.le_add_right _ _), le_refl _⟩

/-- Witness for C2's amended theorem at a concrete full-read invocation. -/
theorem callback_cursor_advance_witness :
    (callback srcZero stFull 2).state.currentFrame =
      (callback srcZero stFull 2).state.readerPos ∧
    (callback srcZero stFull 2).state.currentFrame ≤
      (callback srcZero stFull 2).state.readerPos :=
  ⟨(callback_cursor_advance srcZero stFull 2 rfl).1 (by decide),
   ((callback_cursor_advance srcZero stFull 2 rfl).2.2 (by decide)).2⟩

/-! ### C1: end-of-stream callback behavior -/

/-- In every invocation, the completion notification is dispatched only when
`sd.CallbackStop` is also raised (both happen only in the short-read
branch). -/
lemma callback_dispatch_imp_stop (src : Nat → ℚ) (st : EngineState) (frames : Nat)
    (h : (callback src st frames).dispatched = true) :
    (callback src st frames).stopRaised = true := by
  unfold callback at h ⊢
  by_cases hp : st.paused = true
  · simp [hp] at h
  · simp only [Bool.not_eq_true] at hp
    simp only [hp, Bool.false_eq_true, if_false] at h ⊢
    by_cases hlt : min frames (st.totalFrames - st.readerPos) < frames
    · simp [hlt]
    · simp [hlt] at h

/-- Because a dispatching invocation also raises `CallbackStop` and the audio
subsystem then stops invoking the callback, no run dispatches the completion
notification more than once. -/
lemma dispatchCount_le_one (src : Nat → ℚ) (frames : Nat) :
    ∀ (fuel : Nat) (st : EngineState), dispatchCount src frames st fuel ≤ 1 := by
  intro fuel
  induction fuel with
  | zero => intro st; simp [dispatchCount]
  | succ k ih =>
      intro st
      simp only [dispatchCount]
      by_cases hd : (callback src st frames).dispatched = true
      · rw [callback_dispatch_imp_stop src st frames hd]
        simp [hd]
      · simp only [Bool.not_eq_true] at hd
        simp only [hd, Bool.false_eq_true, if_false]
        by_cases hs : (callback src st frames).stopRaised = true
        · simp [hs]
        · simp only [Bool.not_eq_true] at hs
          simpa [hs] using ih (callback src st frames).state

/-- C1: in a non-paused invocation with a completion handler attached where
the reader can supply only `avail < frames` frames, the callback writes the
`avail` frames it read, each scaled by the current volume, to the start of
the output buffer, zero-fills the remaining `frames - avail` entries,
dispatches the completion notification to a separate thread (recorded as the
`dispatched` event — the handler is not run inside the callback), and raises
`sd.CallbackStop`; consequently a run of the audio subsystem starting at this
invocation dispatches the notification exactly once, and no run whatsoever
dispatches it more than once. -/
theorem callback_eos_dispatch (src : Nat → ℚ) (st : EngineState) (frames : Nat)
    (hp : st.paused = false) (hf : st.finishedCallback = true)
    (hshort : st.totalFrames - st.readerPos < frames) :
    (callback src st frames).out.length = frames ∧
    (∀ i : Nat, i < st.totalFrames - st.readerPos →
       (callback src st frames).out[i]? = some (src (st.readerPos + i) * st.volume)) ∧
    (∀ i : Nat, st.totalFrames - st.readerPos ≤ i → i < frames →
       (callback src st frames).out[i]? = some 0) ∧
    (callback src st frames).dispatched = true ∧
    (callback src st frames).stopRaised = true ∧
    (∀ fuel : Nat, dispatchCount src frames st (fuel + 1) = 1) ∧
    (∀ (s : EngineState) (fuel : Nat), dispatchCount src frames s fuel ≤ 1) := by
  have hmin : min frames (st.totalFrames - st.readerPos) = st.totalFrames - st.readerPos :=
    min_eq_right (Nat.le_of_lt hshort)
  have hcb : callback src st frames =
      { out := ((List.range (st.totalFrames - st.readerPos)).map
            fun i => src (st.readerPos + i)).map (fun x => x * st.volume) ++
          List.replicate (frames - (st.totalFrames - st.readerPos)) 0,
        state := { st with readerPos := st.readerPos + (st.totalFrames - st.readerPos) },
        dispatched := st.finishedCallback,
        stopRaised := true } := by
    simp only [callback, hp, Bool.false_eq_true, if_false, hmin, if_pos hshort]
  refine ⟨?_, ?_, ?_, ?_, ?_, ?_, fun s fuel => dispatchCount_le_one src frames fuel s⟩
  · rw [hcb]
    simp only [List.length_append, List.length_map, List.length_range, List.length_replicate]
    omega
  · intro i hi
    rw [hcb]
    simp only
    rw [List.getElem?_append_left (by simpa using hi), List.getElem?_map,
      List.getElem?_map, List.getElem?_range hi]
    rfl
  · intro i hi1 hi2
    rw [hcb]
    simp only
    rw [List.getElem?_append_right (by simpa using hi1)]
    simp only [List.length_map, List.length_range]
    exact List.getElem?_replicate_of_lt (by omega)
  · rw [hcb]; exact hf
  · rw [hcb]
  · intro fuel
    have hd : (callback src st frames).dispatched = true := by rw [hcb]; exact hf
    have hs : (callback src st frames).stopRaised = true := by rw [hcb]
    simp [dispatchCount, hd, hs]

/-- Witness for C1 at the concrete end-of-stream state `stEnd`. -/
theorem callback_eos_dispatch_witness :
    (callback srcZero stEnd 2).dispatched = true ∧
    (callback srcZero stEnd 2).stopRaised = true ∧
    dispatchCount srcZero 2 stEnd 5 = 1 ∧
    (callback srcZero stEnd 2).out[1]? = some 0 :=
  ⟨(callback_eos_dispatch srcZero stEnd 2 rfl rfl (by decide)).2.2.2.1,
   (callback_eos_dispatch srcZero stEnd 2 rfl rfl (by decide)).2.2.2.2.1,
   (callback_eos_dispatch srcZero stEnd 2 rfl rfl (by decide)).2.2.2.2.2.1 4,
   (callback_eos_dispatch srcZero stEnd 2 rfl rfl (by decide)).2.2.1 1 (by decide) (by decide)⟩

/-! ### C4: seek -/

/-- C4: `seek(seconds)` is a total state update (no error reaches the
caller): the frame target `int(seconds * samplerate)` is clamped into
`[0, total_frames]` before the reader is repositioned — negative targets and
targets past the duration are clamped, not rejected — and the cursor is set
to the reader's new position.  For `seconds ∈ [0, duration]` a subsequent
`get_position()` is within one callback block's time (2048 frames) of
`seconds`. -/
theorem seek_clamps_position (st : EngineState) (seconds : ℚ) :
    (seek st seconds).readerPos ≤ st.totalFrames ∧
    (seek st seconds).currentFrame = (seek st seconds).readerPos ∧
    (0 < st.samplerate → 0 ≤ seconds →
       seconds ≤ (st.totalFrames : ℚ) / (st.samplerate : ℚ) →
       |get_position (seek st seconds) - seconds| ≤ 2048 / (st.samplerate : ℚ)) := by
  refine ⟨?_, rfl, ?_⟩
  · show (npClip (pyInt (seconds * st.samplerate)) 0 st.totalFrames).toNat ≤ st.totalFrames
    exact Int.toNat_le.mpr (min_le_right _ _)
  · intro hsr h0 h1
    have hsrQ : (0 : ℚ) < (st.samplerate : ℚ) := by exact_mod_cast hsr
    set x : ℚ := seconds * (st.samplerate : ℚ) with hxdef
    have hx0 : 0 ≤ x := mul_nonneg h0 hsrQ.le
    have hxt : x ≤ (st.totalFrames : ℚ) := by
      rw [hxdef]
      exact (le_div_iff₀ hsrQ).mp h1
    have hfl0 : (0 : ℤ) ≤ ⌊x⌋ := Int.floor_nonneg.mpr hx0
    have hflt : ⌊x⌋ ≤ (st.totalFrames : ℤ) := by
      have h2 := Int.floor_le_floor hxt
      rwa [Int.floor_natCast] at h2
    have hpy : pyInt x = ⌊x⌋ := if_pos hx0
    have hclip : npClip (pyInt x) 0 st.totalFrames = ⌊x⌋ := by
      rw [hpy, npClip, max_eq_left hfl0, min_eq_left hflt]
    have hpos : get_position (seek st seconds) = (⌊x⌋ : ℚ) / (st.samplerate : ℚ) := by
      show ((npClip (pyInt x) 0 st.totalFrames).toNat : ℚ) / (st.samplerate : ℚ) = _
      rw [hclip]
      congr 1
      exact_mod_cast Int.toNat_of_nonneg hfl0
    have hsec : seconds = x / (st.samplerate : ℚ) :=
      (mul_div_cancel_right₀ seconds hsrQ.ne').symm
    rw [hpos, hsec, div_sub_div_same, abs_div, abs_of_pos hsrQ]
    rw [div_le_div_iff_of_pos_right hsrQ]
    rw [abs_sub_comm, abs_of_nonneg (sub_nonneg.mpr (Int.floor_le x))]
    have hlt : x - (⌊x⌋ : ℚ) < 1 := by
      have := Int.lt_floor_add_one x
      linarith
    linarith

/-- Witness for C4 at samplerate 4, 100 total frames, `seconds = 3/2`. -/
theorem seek_clamps_position_witness :
    (seek stLive (3 / 2)).readerPos ≤ stLive.totalFrames ∧
    |get_position (seek stLive (3 / 2)) - 3 / 2| ≤ 2048 / (stLive.samplerate : ℚ) :=
  ⟨(seek_clamps_position stLive (3 / 2)).1,
   (seek_clamps_position stLive (3 / 2)).2.2 (by decide) (by norm_num)
     (by norm_num [stLive])⟩

/-! ### Application-level lemmas and claims -/

deriving instance DecidableEq for Except

/-- A successful `list.index` result is a valid position. -/
lemma listIndex_lt_length {P : Type} [DecidableEq P] :
    ∀ {l : List P} {p : P} {idx : Nat}, listIndex l p = some idx → idx < l.length := by
  intro l
  induction l with
  | nil => intro p idx h; simp [listIndex] at h
  | cons a as ih =>
      intro p idx h
      by_cases hap : a = p
      · simp only [listIndex, if_pos hap, Option.some.injEq] at h
        simp [List.length_cons]
        omega
      · simp only [listIndex, if_neg hap] at h
        rcases has : listIndex as p with _ | j
        · rw [has] at h; simp at h
        · rw [has] at h
          simp only [Option.map_some', Option.some.injEq] at h
          have hj := ih has
          simp [List.length_cons]
          omega

/-- `list.index` raises `ValueError` exactly when the element is absent. -/
lemma listIndex_none_of_not_mem {P : Type} [DecidableEq P] :
    ∀ (l : List P) (p : P), p ∉ l → listIndex l p = none := by
  intro l
  induction l with
  | nil => intro p _; rfl
  | cons a as ih =>
      intro p h
      rw [List.mem_cons, not_or] at h
      have hap : ¬ a = p := fun hh => h.1 hh.symm
      simp [listIndex, hap, ih p h.2]

/-- Behavior of the `loop=list` branch of `on_track_finished`: when the
finished path is at (first) position `idx` of the current track list, the
handler plays the entry at `(idx + 1) % length` (which exists); when the path
is absent, the `ValueError` is caught and nothing happens. -/
lemma on_track_finished_list_eq {P : Type} [DecidableEq P] (opens : P → Bool)
    (st : AppState P) (p : P) (hm : st.loopMode = LoopMode.list) :
    (∀ idx : Nat, listIndex st.trackList p = some idx →
       ∃ q, st.trackList[(idx + 1) % st.trackList.length]? = some q ∧
         on_track_finished opens st p =
           Except.ok ((play_track opens st q).state, some q)) ∧
    (listIndex st.trackList p = none →
       on_track_finished opens st p = Except.ok (st, none)) := by
  constructor
  · intro idx hidx
    have hlt : idx < st.trackList.length := listIndex_lt_length hidx
    have hlen0 : ¬ st.trackList.length = 0 := by omega
    have hmod : (idx + 1) % st.trackList.length < st.trackList.length :=
      Nat.mod_lt _ (by omega)
    refine ⟨st.trackList[(idx + 1) % st.trackList.length],
      List.getElem?_eq_getElem hmod, ?_⟩
    simp only [on_track_finished, hm, hidx, if_neg hlen0,
      List.getElem?_eq_getElem hmod]
  · intro hnone
    simp only [on_track_finished, hm, hnone]

/-- All tracks open successfully. -/
def opensAll : Nat → Bool := fun _ => true

/-- No track opens successfully. -/
def opensFail : Nat → Bool := fun _ => false

/-- Playlist `[A, B, C]` (as `[0, 1, 2]`), loop mode `list`, currently
playing `C`. -/
def appThree : AppState Nat := ⟨some 2, [0, 1, 2], LoopMode.list⟩

/-- The playlist after a rescan removed `B`: `[A, C]` with `C` playing. -/
def appRescan : AppState Nat := ⟨some 2, [0, 2], LoopMode.list⟩

/-- An app state with an active track. -/
def appPlaying : AppState Nat := ⟨some 1, [0, 1, 2], LoopMode.list⟩

/-- An app state with an empty track list. -/
def appEmpty : AppState Nat := ⟨none, [], LoopMode.list⟩

/-- C7: every `play_track(path)` attempt stops the previously active track
(when there is one) before anything else, so no two engines run
concurrently; if opening/decoding the new file succeeds it becomes the
active track with no failure report, and if it fails no track becomes
active and exactly one failure report is emitted — the attempt is total (no
crash) and is not retried. -/
theorem play_track_spec {P : Type} (opens : P → Bool) (st : AppState P) (p : P) :
    (play_track opens st p).prevStopped = st.currentTrack.isSome ∧
    (opens p = true → (play_track opens st p).state.currentTrack = some p ∧
       (play_track opens st p).errorsReported = 0) ∧
    (opens p = false → (play_track opens st p).state.currentTrack = none ∧
       (play_track opens st p).errorsReported = 1) := by
  unfold play_track
  by_cases h : opens p = true
  · simp [h]
  · simp only [Bool.not_eq_true] at h
    simp [h]

/-- Witness for C7: a failing open with a previously active track. -/
theorem play_track_spec_witness :
    (play_track opensFail appPlaying 0).prevStopped = true ∧
    (play_track opensFail appPlaying 0).state.currentTrack = none ∧
    (play_track opensFail appPlaying 0).errorsReported = 1 :=
  ⟨(play_track_spec opensFail appPlaying 0).1,
   ((play_track_spec opensFail appPlaying 0).2.2 rfl).1,
   ((play_track_spec opensFail appPlaying 0).2.2 rfl).2⟩

/-- C8: on a completion notification for `p` under loop mode `list`, if `p`
is present in the current track list at (first) position `idx`, playback
advances to the entry at `(idx + 1) % length` — the path immediately after
`p`, wrapping from the last entry to the first; if `p` is no longer present,
the notification is dropped and nothing is played. -/
theorem finished_list_advances {P : Type} [DecidableEq P] (opens : P → Bool)
    (st : AppState P) (p : P) (hm : st.loopMode = LoopMode.list) :
    (∀ idx : Nat, listIndex st.trackList p = some idx →
       ∃ q, st.trackList[(idx + 1) % st.trackList.length]? = some q ∧
         on_track_finished opens st p =
           Except.ok ((play_track opens st q).state, some q)) ∧
    (p ∉ st.trackList → on_track_finished opens st p = Except.ok (st, none)) := by
  refine ⟨(on_track_finished_list_eq opens st p hm).1, fun hmem => ?_⟩
  exact (on_track_finished_list_eq opens st p hm).2
    (listIndex_none_of_not_mem st.trackList p hmem)

/-- Witness for C8 on the concrete playlist `[0, 1, 2]` finishing track 2. -/
theorem finished_list_advances_witness :
    ∃ q, appThree.trackList[(2 + 1) % appThree.trackList.length]? = some q ∧
      on_track_finished opensAll appThree 2 =
        Except.ok ((play_track opensAll appThree q).state, some q) :=
  (finished_list_advances opensAll appThree 2 rfl).1 2 (by decide)

/-- C9 as stated is false in its second half: after the rescan to `[A, C]`
the finished track `C` is still present, so the handler does not drop the
notification — it wraps and starts `A` (play of path 0). -/
theorem finished_rescanned_cex :
    ¬ (on_track_finished opensAll appRescan 2 = Except.ok (appRescan, none)) ∧
    on_track_finished opensAll appRescan 2 =
      Except.ok (⟨some 0, [0, 2], LoopMode.list⟩, some 0) := by decide

/-- C9 amended: under loop mode `list` with playlist `[A, B, C]` currently
playing `C`, the end-of-stream completion for `C` starts `A`; and if the
playlist was rescanned to `[A, C]` while `C` was playing, the completion for
`C` also starts `A` (wrapping past `C`): the drop rule applies only when the
finished path itself is absent from the list. -/
theorem finished_list_examples :
    on_track_finished opensAll appThree 2 =
      Except.ok (⟨some 0, [0, 1, 2], LoopMode.list⟩, some 0) ∧
    on_track_finished opensAll appRescan 2 =
      Except.ok (⟨some 0, [0, 2], LoopMode.list⟩, some 0) := by decide

/-- C10: the `loop=list` branch never divides by zero and never raises: a
successful index lookup forces a non-empty list, so `(idx + 1) % length` is
well defined and in bounds; an empty list (and generally any list not
containing the finished path) makes `list.index` raise the `ValueError` the
handler catches, resulting in a no-op. -/
theorem finished_list_no_crash {P : Type} [DecidableEq P] (opens : P → Bool)
    (st : AppState P) (p : P) (hm : st.loopMode = LoopMode.list) :
    (∃ r, on_track_finished opens st p = Except.ok r) ∧
    (∀ idx : Nat, listIndex st.trackList p = some idx → 0 < st.trackList.length) ∧
    (st.trackList = [] → on_track_finished opens st p = Except.ok (st, none)) := by
  refine ⟨?_, ?_, ?_⟩
  · rcases hidx : listIndex st.trackList p with _ | idx
    · exact ⟨(st, none), (on_track_finished_list_eq opens st p hm).2 hidx⟩
    · obtain ⟨q, _, hq⟩ := (on_track_finished_list_eq opens st p hm).1 idx hidx
      exact ⟨((play_track opens st q).state, some q), hq⟩
  · intro idx hidx
    have := listIndex_lt_length hidx
    omega
  · intro hnil
    refine (on_track_finished_list_eq opens st p hm).2 ?_
    rw [hnil]
    rfl

/-- Witness for C10 on the empty playlist. -/
theorem finished_list_no_crash_witness :
    on_track_finished opensAll appEmpty 5 = Except.ok (appEmpty, none) :=
  (finished_list_no_crash opensAll appEmpty 5 rfl).2.2 rfl
